import Mathlib

/-!
Verification of the Planning Center → Airtable webhook service.

The JavaScript source is shallowly embedded as Lean functions:
- `extractName`, `extractNotes`, `extractStatus` and
  `transformWebhookToAirtableRecord` from airtable-methods.js
  (the same helpers appear verbatim in the standalone webhook variant);
- the simplest webhook handler from the standalone variant;
- the schema-aware webhook handler from the second variant;
- `getTableSchema`, whose implementation is absent from the sources
  (only imported and called), modelled from the spec.

JavaScript string truthiness (a string is falsy exactly when it is empty
or absent) is modelled by `truthyStr` on `Option String`; the wall clock
read by `new Date().toISOString()` is passed in as an explicit `now`
argument; the asynchronous Airtable write is modelled by a boolean
outcome parameter.
-/

namespace AirtableWebhook

/-- The `data.attributes` mapping of a webhook payload, restricted to the
keys the code reads. An absent key is `none`. -/
structure Attributes where
  first_name : Option String := none
  last_name : Option String := none
  name : Option String := none
  title : Option String := none
  description : Option String := none
  notes : Option String := none
  status : Option String := none
deriving Repr, DecidableEq

/-- The `data` object of a webhook payload. -/
structure WebhookData where
  attributes : Option Attributes := none
deriving Repr, DecidableEq

/-- The whole webhook payload body: `{ data, action }`, both optional. -/
structure WebhookBody where
  data : Option WebhookData := none
  action : Option String := none
deriving Repr, DecidableEq

/-- The three Airtable fields produced by the transformer. -/
structure AirtableFields where
  Name : String
  Notes : String
  Status : String
deriving Repr, DecidableEq

/-- JavaScript truthiness of an optional string: an absent value and the
empty string are falsy, every other string is truthy. -/
def truthyStr : Option String → Bool
  | some s => s ≠ ""
  | none => false

/-- Model of JavaScript `String.prototype.toUpperCase` on the ASCII
strings the code deals with. -/
def toUpperCase (s : String) : String :=
  String.mk (s.data.map Char.toUpper)

/-- JSON string quoting as done by `JSON.stringify` on plain strings
(escaping is not modelled; the modelled payloads carry no special
characters). -/
def jsonQuote (s : String) : String :=
  "\"" ++ s ++ "\""

/-- The present key/value pairs of an `attributes` object, in the fixed
key order of the model. -/
def attrPairs (a : Attributes) : List (String × String) :=
  [("first_name", a.first_name), ("last_name", a.last_name),
   ("name", a.name), ("title", a.title), ("description", a.description),
   ("notes", a.notes), ("status", a.status)].filterMap
    (fun p => p.2.map (fun v => (p.1, v)))

/-- `JSON.stringify` of an `attributes` object: present keys only,
insertion order, no whitespace. -/
def stringifyAttrs (a : Attributes) : String :=
  "\x7b" ++
    String.intercalate ","
      ((attrPairs a).map (fun p => jsonQuote p.1 ++ ":" ++ jsonQuote p.2)) ++
  "\x7d"

/-- `JSON.stringify` of the whole `data` object. -/
def stringifyData (d : WebhookData) : String :=
  match d.attributes with
  | some a => "\x7b\"attributes\":" ++ stringifyAttrs a ++ "\x7d"
  | none => "\x7b\x7d"

/-- `extractName` from airtable-methods.js line 108 (identical in the
standalone variant): first_name + last_name, then name, then title, then
a timestamped fallback. `now` is the ISO timestamp the code reads from
the clock. -/
def extractName (d : WebhookData) (now : String) : String :=
  match d.attributes with
  | some attrs =>
      if truthyStr attrs.first_name && truthyStr attrs.last_name then
        attrs.first_name.getD "" ++ " " ++ attrs.last_name.getD ""
      else if truthyStr attrs.name then
        attrs.name.getD ""
      else if truthyStr attrs.title then
        attrs.title.getD ""
      else
        "Planning Center Item - " ++ now
  | none => "Planning Center Item - " ++ now

/-- `extractNotes` from airtable-methods.js line 124 (identical in the
standalone variant): description, then notes, then a raw JSON dump. -/
def extractNotes (d : WebhookData) : String :=
  match d.attributes with
  | some attrs =>
      if truthyStr attrs.description then
        attrs.description.getD ""
      else if truthyStr attrs.notes then
        attrs.notes.getD ""
      else
        "Raw data: " ++ stringifyData d
  | none => "Raw data: " ++ stringifyData d

/-- `extractStatus` from airtable-methods.js line 137 (identical in the
standalone variant): uppercase the action if truthy, else a truthy
`data.attributes.status` verbatim, else the literal "RECEIVED". -/
def extractStatus (d : WebhookData) (action : Option String) : String :=
  if truthyStr action then
    toUpperCase (action.getD "")
  else if truthyStr (d.attributes.bind Attributes.status) then
    (d.attributes.bind Attributes.status).getD ""
  else
    "RECEIVED"

/-- `transformWebhookToAirtableRecord` from airtable-methods.js line 85:
a fixed error record when the payload has no `data`, otherwise the three
extracted fields. -/
def transformWebhookToAirtableRecord (body : WebhookBody) (now : String) :
    AirtableFields :=
  match body.data with
  | none => ⟨"Unknown", "No data received", "ERROR"⟩
  | some d => ⟨extractName d now, extractNotes d, extractStatus d body.action⟩

/-- One known field of the table schema: its name and its type tag. -/
structure FieldInfo where
  name : String
  type : String
deriving Repr, DecidableEq

/-- A probed table schema: the known fields and, when discovered, the
allowed values for the constrained Status field
(`schema.recommendedValues?.Status` in the code; `none` models an absent
`recommendedValues` or `Status` key). -/
structure Schema where
  fields : List FieldInfo
  recommendedStatus : Option (List String)
deriving Repr, DecidableEq

/-- Modelled from the spec: the static known-field list of the schema
prober (Name: text, Notes: text, Status: constrained-choice). The
implementation of `getTableSchema` is imported and called in the sources
but is not among them. -/
def staticFields : List FieldInfo :=
  [⟨"Name", "text"⟩, ⟨"Notes", "text"⟩, ⟨"Status", "constrained-choice"⟩]

/-- Modelled from the spec: the static schema returned when probing is
impossible, with the fixed candidate set for the constrained Status
field. -/
def staticSchema : Schema :=
  ⟨staticFields, some ["New", "In Progress", "Completed", "Pending"]⟩

/-- Modelled from the spec: `getTableSchema`, whose implementation is
absent from the sources (only its import and call sites appear). It
takes the outcome of fetching up to 3 sample rows (each row its observed
field names); on any retrieval error it returns the static schema
unchanged, otherwise it appends field names seen in samples but missing
from the static list as "unknown"-typed discovered fields. -/
def getTableSchema (fetched : Except String (List (List String))) : Schema :=
  match fetched with
  | .error _ => staticSchema
  | .ok rows =>
      let observed := ((rows.take 3).flatten).dedup
      let discovered :=
        observed.filter (fun n => ¬ staticFields.any (fun f => f.name = n))
      ⟨staticFields ++ discovered.map (fun n => ⟨n, "unknown"⟩),
       staticSchema.recommendedStatus⟩

/-- The Status allow-list the schema-aware handler works with:
`schema.recommendedValues?.Status || ['New', 'In Progress', 'Completed',
'Pending']` (a present empty array is truthy in JavaScript and is kept). -/
def statusOptionsOf (schema : Schema) : List String :=
  match schema.recommendedStatus with
  | some l => l
  | none => ["New", "In Progress", "Completed", "Pending"]

/-- The sanitized record the schema-aware handler sends to the store:
Name always present (with a timestamped fallback), Notes only when
truthy, Status only when the allow-list is non-empty, sanitized against
it. -/
structure SafeFields where
  Name : String
  Notes : Option String
  Status : Option String
deriving Repr, DecidableEq

/-- The record-construction core of the schema-aware `POST /webhook`
handler (second webhook variant): transform, then build the safe record
whose Status is sanitized against the probed allow-list. -/
def webhookSafeRecord (schema : Schema) (body : WebhookBody) (now : String) :
    SafeFields :=
  let raw := transformWebhookToAirtableRecord body now
  let nameField := if raw.Name ≠ "" then raw.Name else "Webhook " ++ now
  let notesField := if raw.Notes ≠ "" then some raw.Notes else none
  let statusOptions := statusOptionsOf schema
  let statusField :=
    if statusOptions.length > 0 then
      some (if raw.Status ≠ "" ∧ raw.Status ∈ statusOptions then raw.Status
            else statusOptions.headD "")
    else none
  ⟨nameField, notesField, statusField⟩

/-- The observable outcome of one request to the simplest webhook
handler: the HTTP status, the response body, and the records written to
the store during the request. -/
structure SimpleResult where
  status : Nat
  body : String
  written : List AirtableFields
deriving Repr, DecidableEq

/-- The `POST /webhook` handler of the standalone variant: 400 and no
write when the payload has no `data`, otherwise transform and write (the
write outcome is the `writeOk` parameter; a failed write leaves the
store unchanged and answers 500). -/
def webhookSimpleHandler (body : WebhookBody) (now : String)
    (writeOk : Bool) : SimpleResult :=
  match body.data with
  | none => ⟨400, "No data received", []⟩
  | some d =>
      let record : AirtableFields :=
        ⟨extractName d now, extractNotes d, extractStatus d body.action⟩
      if writeOk then ⟨200, "Success", [record]⟩
      else ⟨500, "Error processing webhook", []⟩

/-! Helper lemmas on the embedded strings: non-emptiness facts the
handlers rely on. -/

theorem append_ne_empty (a b : String) (h : a ≠ "") : a ++ b ≠ "" := by
  intro hab
  apply h
  cases a with
  | mk l =>
    cases b with
    | mk m =>
      cases l with
      | nil => rfl
      | cons c cs =>
        have hdata : (String.mk (c :: cs) ++ String.mk m).data = [] := by
          rw [hab]
        simp [String.data] at hdata

theorem toUpperCase_ne_empty (s : String) (h : s ≠ "") :
    toUpperCase s ≠ "" := by
  intro hu
  apply h
  cases s with
  | mk l =>
    cases l with
    | nil => rfl
    | cons c cs =>
      have hdata : (toUpperCase (String.mk (c :: cs))).data = [] := by
        rw [hu]
      simp [toUpperCase] at hdata

theorem truthyStr_some_iff (o : Option String) :
    truthyStr o = true ↔ ∃ s, o = some s ∧ s ≠ "" := by
  cases o with
  | none => simp [truthyStr]
  | some s => simp [truthyStr]

theorem extractStatus_ne_empty (d : WebhookData) (action : Option String) :
    extractStatus d action ≠ "" := by
  unfold extractStatus
  split
  · case isTrue h =>
      obtain ⟨s, hs, hne⟩ := (truthyStr_some_iff action).mp h
      subst hs
      exact toUpperCase_ne_empty s hne
  · split
    · case isTrue h2 =>
        obtain ⟨s, hs, hne⟩ :=
          (truthyStr_some_iff (d.attributes.bind Attributes.status)).mp h2
        rw [hs]
        simpa using hne
    · decide

theorem extractName_ne_empty (d : WebhookData) (now : String) :
    extractName d now ≠ "" := by
  unfold extractName
  cases d.attributes with
  | none => exact append_ne_empty _ _ (by decide)
  | some attrs =>
      simp only
      split
      · case isTrue h =>
          have h1 : truthyStr attrs.first_name = true :=
            ((Bool.and_eq_true _ _).mp h).1
          obtain ⟨s, hs, hne⟩ := (truthyStr_some_iff _).mp h1
          rw [hs]
          simp only [Option.getD_some]
          exact append_ne_empty _ _ (append_ne_empty _ _ hne)
      · split
        · case isTrue h =>
            obtain ⟨s, hs, hne⟩ := (truthyStr_some_iff _).mp h
            rw [hs]
            simpa using hne
        · split
          · case isTrue h =>
              obtain ⟨s, hs, hne⟩ := (truthyStr_some_iff _).mp h
              rw [hs]
              simpa using hne
          · exact append_ne_empty _ _ (by decide)

theorem transform_name_ne_empty (body : WebhookBody) (now : String) :
    (transformWebhookToAirtableRecord body now).Name ≠ "" := by
  cases hb : body.data with
  | none => simp [transformWebhookToAirtableRecord, hb]
  | some d =>
      simpa [transformWebhookToAirtableRecord, hb] using
        extractName_ne_empty d now

theorem transform_status_ne_empty (body : WebhookBody) (now : String) :
    (transformWebhookToAirtableRecord body now).Status ≠ "" := by
  cases hb : body.data with
  | none => simp [transformWebhookToAirtableRecord, hb]
  | some d =>
      simpa [transformWebhookToAirtableRecord, hb] using
        extractStatus_ne_empty d body.action

/-! Claim theorems. -/

/-- Claim C3: for every webhook payload whose data field is absent, the
transform returns exactly the fixed record Name "Unknown", Notes
"No data received", Status "ERROR" (and, being a total function, does
not throw). -/
theorem c3_transform_without_data (body : WebhookBody) (now : String)
    (h : body.data = none) :
    transformWebhookToAirtableRecord body now =
      ⟨"Unknown", "No data received", "ERROR"⟩ := by
  simp [transformWebhookToAirtableRecord, h]

/-- Witness for C3 at the empty payload. -/
theorem c3_transform_without_data_witness :
    transformWebhookToAirtableRecord ⟨none, none⟩ "2025-01-01T00:00:00Z" =
      ⟨"Unknown", "No data received", "ERROR"⟩ :=
  c3_transform_without_data ⟨none, none⟩ "2025-01-01T00:00:00Z" rfl

/-- Claim C6: under Status-derivation policy (a), a present non-empty action
string makes the transformed Status the uppercased action. -/
theorem c6_status_uppercases_action (d : WebhookData) (act : String)
    (h : act ≠ "") :
    extractStatus d (some act) = toUpperCase act := by
  simp [extractStatus, truthyStr, h]

/-- Witness for C6: action "created" gives Status "CREATED". -/
theorem c6_status_uppercases_action_witness :
    extractStatus ⟨none⟩ (some "created") = "CREATED" :=
  (c6_status_uppercases_action ⟨none⟩ "created" (by decide)).trans (by decide)

/-- Claim C7: the schema prober never fails its caller: on any retrieval error
`getTableSchema` returns the static schema (Name: text, Notes: text,
Status: constrained-choice) unchanged; being total, it returns a schema
for every fetch outcome. -/
theorem c7_prober_never_fails (e : String) :
    getTableSchema (Except.error e) = staticSchema ∧
    staticSchema.fields =
      [⟨"Name", "text"⟩, ⟨"Notes", "text"⟩, ⟨"Status", "constrained-choice"⟩] :=
  ⟨rfl, rfl⟩

/-- Claim C8: in the simplest webhook variant, a POST body lacking `data` is
answered with HTTP 400 and nothing is written to the store. -/
theorem c8_missing_data_yields_400 (body : WebhookBody) (now : String)
    (writeOk : Bool) (h : body.data = none) :
    (webhookSimpleHandler body now writeOk).status = 400 ∧
    (webhookSimpleHandler body now writeOk).written = [] := by
  simp [webhookSimpleHandler, h]

/-- Witness for C8 at the empty JSON body. -/
theorem c8_missing_data_yields_400_witness :
    (webhookSimpleHandler ⟨none, none⟩ "2025-01-01T00:00:00Z" true).status = 400 ∧
    (webhookSimpleHandler ⟨none, none⟩ "2025-01-01T00:00:00Z" true).written = [] :=
  c8_missing_data_yields_400 ⟨none, none⟩ "2025-01-01T00:00:00Z" true rfl

/-- Claim C10: with a data object but no action, the transformer yields
"RECEIVED" when there is no `data.attributes.status`, and a present
non-empty `data.attributes.status` verbatim, with no allow-list
membership check (the value is arbitrary). -/
theorem c10_status_default_and_verbatim (d : WebhookData) :
    (d.attributes.bind Attributes.status = none →
        extractStatus d none = "RECEIVED")
  ∧ (∀ a s, d.attributes = some a → a.status = some s → s ≠ "" →
        extractStatus d none = s) := by
  constructor
  · intro h
    simp [extractStatus, truthyStr, h]
  · intro a s ha hs hne
    simp [extractStatus, truthyStr, ha, hs, hne]

/-- Witness for C10: no status gives "RECEIVED"; the out-of-allow-list
value "whatever" passes through verbatim. -/
theorem c10_status_default_and_verbatim_witness :
    extractStatus ⟨some ⟨none, none, none, none, none, none, none⟩⟩ none
        = "RECEIVED" ∧
    extractStatus ⟨some ⟨none, none, none, none, none, none, some "whatever"⟩⟩
        none = "whatever" :=
  ⟨(c10_status_default_and_verbatim
      ⟨some ⟨none, none, none, none, none, none, none⟩⟩).1 rfl,
   (c10_status_default_and_verbatim
      ⟨some ⟨none, none, none, none, none, none, some "whatever"⟩⟩).2
      ⟨none, none, none, none, none, none, some "whatever"⟩ "whatever" rfl rfl
      (by decide)⟩

/-- Claim C1 counterexample: the code has no fixed action lookup; for
action "created" the transformed Status is "CREATED", not the
"Not started" the claim requires. -/
theorem c1_fixed_lookup_counterexample :
    extractStatus ⟨some ⟨none, none, none, none, none, none, none⟩⟩
        (some "created") = "CREATED" ∧
    ("CREATED" : String) ≠ "Not started" := by
  constructor
  · decide
  · decide

/-- Claim C1 amended: for every payload with a data object, a present
non-empty action yields the uppercased action string; with no truthy
action, a present non-empty `data.attributes.status` is returned
verbatim; otherwise Status is "RECEIVED". -/
theorem c1_amended_status_policy (d : WebhookData) (action : Option String) :
    (∀ s, action = some s → s ≠ "" → extractStatus d action = toUpperCase s)
  ∧ (truthyStr action = false →
       ∀ a s, d.attributes = some a → a.status = some s → s ≠ "" →
         extractStatus d action = s)
  ∧ (truthyStr action = false →
       truthyStr (d.attributes.bind Attributes.status) = false →
       extractStatus d action = "RECEIVED") := by
  refine ⟨?_, ?_, ?_⟩
  · intro s hs hne
    subst hs
    simp [extractStatus, truthyStr, hne]
  · intro hact a s ha hs hne
    have hbind : d.attributes.bind Attributes.status = some s := by
      rw [ha]
      simpa using hs
    have htr : truthyStr (d.attributes.bind Attributes.status) = true := by
      rw [hbind]
      simpa [truthyStr] using hne
    unfold extractStatus
    rw [hact]
    simp [hbind, truthyStr, hne]
  · intro hact hst
    simp [extractStatus, hact, hst]

/-- Witness for C1 amended: action "updated" gives "UPDATED". -/
theorem c1_amended_status_policy_witness :
    extractStatus ⟨none⟩ (some "updated") = "UPDATED" :=
  ((c1_amended_status_policy ⟨none⟩ (some "updated")).1 "updated" rfl
    (by decide)).trans (by decide)

/-- Claim C4: Name extraction priority for payloads with a data object: both
first_name and last_name present (non-empty) gives their space-separated
concatenation; otherwise a present non-empty name is returned, otherwise
a present non-empty title, otherwise the literal "Planning Center Item - "
followed by the current ISO timestamp (also when the attributes object
itself is absent). -/
theorem c4_name_priority (d : WebhookData) (now : String) :
    (∀ a f l, d.attributes = some a → a.first_name = some f → f ≠ "" →
        a.last_name = some l → l ≠ "" → extractName d now = f ++ " " ++ l)
  ∧ (∀ a n, d.attributes = some a →
        (truthyStr a.first_name && truthyStr a.last_name) = false →
        a.name = some n → n ≠ "" → extractName d now = n)
  ∧ (∀ a t, d.attributes = some a →
        (truthyStr a.first_name && truthyStr a.last_name) = false →
        truthyStr a.name = false → a.title = some t → t ≠ "" →
        extractName d now = t)
  ∧ (∀ a, d.attributes = some a →
        (truthyStr a.first_name && truthyStr a.last_name) = false →
        truthyStr a.name = false → truthyStr a.title = false →
        extractName d now = "Planning Center Item - " ++ now)
  ∧ (d.attributes = none →
        extractName d now = "Planning Center Item - " ++ now) := by
  refine ⟨?_, ?_, ?_, ?_, ?_⟩
  · intro a f l ha hf hfne hl hlne
    simp [extractName, ha, truthyStr, hf, hl, hfne, hlne]
  · intro a n ha hfl hn hnne
    unfold extractName
    rw [ha]
    simp only [hfl]
    simp [truthyStr, hn, hnne]
  · intro a t ha hfl hname ht htne
    unfold extractName
    rw [ha]
    simp only [hfl, hname]
    simp [truthyStr, ht, htne]
  · intro a ha hfl hname htitle
    unfold extractName
    rw [ha]
    simp only [hfl, hname, htitle]
    simp
  · intro ha
    simp [extractName, ha]

/-- Witness for C4: first_name "Jane" and last_name "Doe" give
Name "Jane Doe". -/
theorem c4_name_priority_witness :
    extractName ⟨some ⟨some "Jane", some "Doe", none, none, none, none, none⟩⟩
        "2025-01-01T00:00:00Z" = "Jane Doe" :=
  ((c4_name_priority
      ⟨some ⟨some "Jane", some "Doe", none, none, none, none, none⟩⟩
      "2025-01-01T00:00:00Z").1
    ⟨some "Jane", some "Doe", none, none, none, none, none⟩ "Jane" "Doe"
    rfl rfl (by decide) rfl (by decide)).trans (by decide)

/-- Claim C5: Notes extraction priority for payloads with a data object: a
present non-empty description wins, then a present non-empty notes,
otherwise the string "Raw data: " followed by the JSON serialization of
the whole data object (also when the attributes object itself is
absent). -/
theorem c5_notes_priority (d : WebhookData) :
    (∀ a s, d.attributes = some a → a.description = some s → s ≠ "" →
        extractNotes d = s)
  ∧ (∀ a s, d.attributes = some a → truthyStr a.description = false →
        a.notes = some s → s ≠ "" → extractNotes d = s)
  ∧ (∀ a, d.attributes = some a → truthyStr a.description = false →
        truthyStr a.notes = false →
        extractNotes d = "Raw data: " ++ stringifyData d)
  ∧ (d.attributes = none →
        extractNotes d = "Raw data: " ++ stringifyData d) := by
  refine ⟨?_, ?_, ?_, ?_⟩
  · intro a s ha hs hne
    simp [extractNotes, ha, truthyStr, hs, hne]
  · intro a s ha hdesc hs hne
    unfold extractNotes
    rw [ha]
    simp only [hdesc]
    simp [truthyStr, hs, hne]
  · intro a ha hdesc hnotes
    unfold extractNotes
    rw [ha]
    simp only [hdesc, hnotes]
    simp
  · intro ha
    simp [extractNotes, ha]

/-- Witness for C5: no description and no notes give the raw-data dump
of the data object. -/
theorem c5_notes_priority_witness :
    extractNotes ⟨some ⟨none, none, some "Jane Doe", none, none, none, none⟩⟩
      = "Raw data: \x7b\"attributes\":\x7b\"name\":\"Jane Doe\"\x7d\x7d" :=
  ((c5_notes_priority
      ⟨some ⟨none, none, some "Jane Doe", none, none, none, none⟩⟩).2.2.1
    ⟨none, none, some "Jane Doe", none, none, none, none⟩ rfl (by decide)
    (by decide)).trans (by decide)

/-- Claim C2: schema-aware Status sanitization: for a non-empty allow-list and
the candidate Status produced by the transformer, the record written
carries the candidate when it is a member of the list, and the first
allowed value otherwise. -/
theorem c2_status_sanitization (schema : Schema) (body : WebhookBody)
    (now : String) (hL : statusOptionsOf schema ≠ []) :
    (webhookSafeRecord schema body now).Status =
      some (if (transformWebhookToAirtableRecord body now).Status ∈
                statusOptionsOf schema
            then (transformWebhookToAirtableRecord body now).Status
            else (statusOptionsOf schema).headD "") := by
  have hlen : 0 < (statusOptionsOf schema).length := List.length_pos.mpr hL
  have hS := transform_status_ne_empty body now
  simp only [webhookSafeRecord, hlen, if_pos, gt_iff_lt]
  by_cases hmem : (transformWebhookToAirtableRecord body now).Status ∈
      statusOptionsOf schema
  · simp [hmem, hS]
  · simp [hmem]

/-- Witness for C2: with allow-list ["In progress", "Done", "Not started"]
and candidate "Done" (from data.attributes.status), the record carries
"Done". -/
theorem c2_status_sanitization_witness :
    (webhookSafeRecord ⟨[], some ["In progress", "Done", "Not started"]⟩
        ⟨some ⟨some ⟨none, none, none, none, none, none, some "Done"⟩⟩, none⟩
        "2025-01-01T00:00:00Z").Status = some "Done" :=
  (c2_status_sanitization
      ⟨[], some ["In progress", "Done", "Not started"]⟩
      ⟨some ⟨some ⟨none, none, none, none, none, none, some "Done"⟩⟩, none⟩
      "2025-01-01T00:00:00Z" (by decide)).trans (by decide)

/-- Claim C9: invariant on outgoing records: the transformer output always has
a non-empty Name, the schema-aware safe record always has a non-empty
Name, and whenever the safe record carries a Status it is a member of
the allow-list in force. -/
theorem c9_outgoing_record_invariant (schema : Schema) (body : WebhookBody)
    (now : String) :
    (transformWebhookToAirtableRecord body now).Name ≠ ""
  ∧ (webhookSafeRecord schema body now).Name ≠ ""
  ∧ (∀ s, (webhookSafeRecord schema body now).Status = some s →
        s ∈ statusOptionsOf schema) := by
  refine ⟨transform_name_ne_empty body now, ?_, ?_⟩
  · unfold webhookSafeRecord
    simp only
    split
    · case isTrue h => exact h
    · exact append_ne_empty _ _ (by decide)
  · intro s hs
    unfold webhookSafeRecord at hs
    simp only at hs
    split at hs
    · case isTrue hlen =>
        rw [Option.some.injEq] at hs
        subst hs
        split
        · case isTrue h => exact h.2
        · cases hL : statusOptionsOf schema with
          | nil => simp [hL] at hlen
          | cons a t => simp [hL]
    · exact absurd hs (by simp)

/-- Witness for C9: a concrete schema and payload whose safe record
carries Status "Done", a member of the probed allow-list. -/
theorem c9_outgoing_record_invariant_witness :
    (transformWebhookToAirtableRecord
        ⟨some ⟨some ⟨none, none, none, none, none, none, some "Done"⟩⟩, none⟩
        "2025-01-01T00:00:00Z").Name ≠ "" ∧
    "Done" ∈ statusOptionsOf ⟨[], some ["Done"]⟩ :=
  ⟨(c9_outgoing_record_invariant ⟨[], some ["Done"]⟩
      ⟨some ⟨some ⟨none, none, none, none, none, none, some "Done"⟩⟩, none⟩
      "2025-01-01T00:00:00Z").1,
   (c9_outgoing_record_invariant ⟨[], some ["Done"]⟩
      ⟨some ⟨some ⟨none, none, none, none, none, none, some "Done"⟩⟩, none⟩
      "2025-01-01T00:00:00Z").2.2 "Done" (by decide)⟩

end AirtableWebhook
